import Mathlib

/-!
Shallow embedding of the fsearch application-launcher plugin core
(src/src/main.rs).  Filesystem reads, the xdgkit descriptor parser and the
icon finder are external effects; they are modelled as explicit data inside
a `Sys` record that every operation threads.  Rust panics (every `.unwrap()`
on a `None` or on a failed I/O result) are modelled as `Except.error` with a
message identifying the panic site.  The cache file content is modelled at
the level of a JSON value tree (`Json`), matching the serde-derived
encoding of the cached structures.
-/

/-- Case-insensitive lowering of a string to its character list, modelling
Rust `str::to_lowercase` for the fields and queries compared here. -/
def lowerChars (s : String) : List Char :=
  s.data.map Char.toLower

/-- `leadB needle hay` holds when `needle` is an initial segment of `hay`. -/
def leadB : List Char → List Char → Bool
  | [], _ => true
  | _ :: _, [] => false
  | a :: as, b :: bs => a == b && leadB as bs

/-- `subIn needle hay`: `needle` occurs contiguously somewhere in `hay`,
modelling Rust `str::contains`. -/
def subIn (needle : List Char) : List Char → Bool
  | [] => leadB needle []
  | c :: rest => leadB needle (c :: rest) || subIn needle rest

/-- `lcContains hay needle` models
`hay.to_lowercase().contains(needle.to_lowercase().as_str())`. -/
def lcContains (hay needle : String) : Bool :=
  subIn (lowerChars needle) (lowerChars hay)

/-- `endsWithB s suffix` models Rust `str::ends_with`. -/
def endsWithB (s tail : String) : Bool :=
  leadB tail.data.reverse s.data.reverse

/-- The fields of an xdgkit-parsed desktop entry that the program consumes
(xdgkit `DesktopEntry::read` output restricted to the keys read by main.rs).
Every field is optional in the parsed form. -/
structure DesktopEntry where
  name : Option String
  generic_name : Option String
  comment : Option String
  exec : Option String
  icon : Option String

/-- `DesktopEntryBase` from main.rs: the indexed record. -/
structure DesktopEntryBase where
  name : String
  exec : String
  icon : Option String
  comment : Option String
  generic_name : Option String
deriving DecidableEq, Repr

/-- `CachedEntries` from main.rs: the cache snapshot. -/
structure CachedEntries where
  entries : List DesktopEntryBase
  last_update : Nat
deriving DecidableEq, Repr

/-- JSON value tree, the level at which the serde encoding of the cache file
is modelled (`serde_json::to_string` / `from_str` compose string rendering
with this structure; the string layer belongs to the external library). -/
inductive Json where
  | null
  | str (s : String)
  | num (n : Nat)
  | arr (xs : List Json)
  | obj (fields : List (String × Json))

/-- One entry yielded by `std::fs::ReadDir`: either an errored directory
entry (`file.is_err()`), or a file with its name and the outcome of opening
and reading it (`Except.error ()` means `File::open` or `read_to_string`
would fail for it). -/
inductive DirItem where
  | err
  | file (fname : String) (content : Except Unit String)

/-- The world the program runs against: the cache file content (as a JSON
tree, `none` when the file does not exist), the five scanned directories
(`Except.error ()` when `read_dir` fails for that path), the clock, and the
three external capabilities (path existence, the icon finder, and the xdgkit
descriptor parser). -/
structure Sys where
  cacheFile : Option Json
  usrShare : Except Unit (List DirItem)
  usrLocalShare : Except Unit (List DirItem)
  localShare : Except Unit (List DirItem)
  desktopDir : Except Unit (List DirItem)
  flatpak : Except Unit (List DirItem)
  now : Nat
  pathExists : String → Bool
  findIcon : String → Nat → Nat → Option String
  readEntry : String → DesktopEntry

/-- Panic message for `Option::unwrap` on `None`. -/
def unwrapMsg : String := "called Option::unwrap on a None value"

/-- Panic message for an unwrapped failed file open or read. -/
def readMsg : String := "file open or read failed"

/-- Panic message for an unwrapped serde decode failure. -/
def decodeMsg : String := "cache decode failed"

/-- Rust `Option::unwrap`: panics (modelled as `Except.error`) on `None`. -/
def unwrapOpt {α : Type} : Option α → Except String α
  | some a => Except.ok a
  | none => Except.error unwrapMsg

/-- `get_icon_path` from main.rs: keep the raw icon value when it names an
existing path, otherwise resolve it through the icon finder at size 48. -/
def get_icon_path (s : Sys) (icon_name : String) : Option String :=
  if s.pathExists icon_name then
    some icon_name
  else
    match s.findIcon icon_name 48 1 with
    | some icon => some icon
    | none => none

/-- The record built for an accepted match in `get_desktop_entry`, with the
display name already unwrapped (`entry.name.unwrap()` happens first at the
call sites). -/
def toBase (s : Sys) (entry : DesktopEntry) (nm : String) : DesktopEntryBase :=
  { name := nm
    exec := entry.exec.getD ""
    generic_name := entry.generic_name
    icon := get_icon_path s (entry.icon.getD "loupe")
    comment := entry.comment }

/-- Loop body of `get_desktop_entry` from main.rs, with the accumulated
`acc` made explicit.  Mirrors the source exactly: the per-iteration
length-versus-max break, the skip of errored directory entries, the
`.desktop` suffix filter, the unwrapped file read, and the three-way
name / generic_name / comment matching chain in which the latter two
branches unwrap the (absent) `entry.name` while building the record. -/
def gdeGo (s : Sys) (query : String) (max : Nat) :
    List DirItem → List DesktopEntryBase → Except String (List DesktopEntryBase)
  | [], acc => Except.ok acc
  | item :: rest, acc =>
    if max ≤ acc.length then Except.ok acc
    else
      match item with
      | DirItem.err => gdeGo s query max rest acc
      | DirItem.file fname content =>
        if endsWithB fname ".desktop" then
          match content with
          | Except.error _ => Except.error readMsg
          | Except.ok contents =>
            let entry := s.readEntry contents
            if entry.name.isSome then
              match unwrapOpt entry.name with
              | Except.error e => Except.error e
              | Except.ok name =>
                if lcContains name query then
                  match unwrapOpt entry.name with
                  | Except.error e => Except.error e
                  | Except.ok nm =>
                    gdeGo s query max rest (acc ++ [toBase s entry nm])
                else gdeGo s query max rest acc
            else if entry.generic_name.isSome then
              match unwrapOpt entry.generic_name with
              | Except.error e => Except.error e
              | Except.ok gname =>
                if lcContains gname query then
                  match unwrapOpt entry.name with
                  | Except.error e => Except.error e
                  | Except.ok nm =>
                    gdeGo s query max rest (acc ++ [toBase s entry nm])
                else gdeGo s query max rest acc
            else if entry.comment.isSome then
              match unwrapOpt entry.comment with
              | Except.error e => Except.error e
              | Except.ok cmt =>
                if lcContains cmt query then
                  match unwrapOpt entry.name with
                  | Except.error e => Except.error e
                  | Except.ok nm =>
                    gdeGo s query max rest (acc ++ [toBase s entry nm])
                else gdeGo s query max rest acc
            else gdeGo s query max rest acc
        else gdeGo s query max rest acc

/-- `get_desktop_entry` from main.rs: scan one directory under a query and a
per-directory match budget. -/
def get_desktop_entry (s : Sys) (query : String) (dir : List DirItem)
    (max : Nat) : Except String (List DesktopEntryBase) :=
  gdeGo s query max dir []

/-- Stable insertion of a record into a name-sorted list. -/
def insertByName (e : DesktopEntryBase) :
    List DesktopEntryBase → List DesktopEntryBase
  | [] => [e]
  | x :: xs => if e.name < x.name then e :: x :: xs else x :: insertByName e xs

/-- The source line `matches.sort_by` ordering by name from main.rs. -/
def sortByName : List DesktopEntryBase → List DesktopEntryBase
  | [] => []
  | x :: xs => insertByName x (sortByName xs)

/-- One `if xxx.is_ok()` extend-with-scan block of
the live scan: an unreadable directory contributes nothing. -/
def scanDir (s : Sys) (q : String) (limit : Nat) :
    Except Unit (List DirItem) → Except String (List DesktopEntryBase)
  | Except.ok dir => get_desktop_entry s q dir limit
  | Except.error _ => Except.ok []

/-- Lines 299-339 of main.rs: the live scan over the five source
directories, in source order.  Note the source passes the empty string, not
`query`, when scanning the per-user desktop directory (line 328). -/
def live_scan (s : Sys) (query : String) (limit : Nat) :
    Except String (List DesktopEntryBase) := do
  let m1 ← scanDir s query limit s.usrShare
  let m2 ← scanDir s query limit s.usrLocalShare
  let m3 ← scanDir s query limit s.localShare
  let m4 ← scanDir s "" limit s.desktopDir
  let m5 ← scanDir s query limit s.flatpak
  Except.ok (sortByName (m1 ++ m2 ++ m3 ++ m4 ++ m5))

/-- serde encoding of an `Option<String>` field: `null` or the string. -/
def encodeOptStr : Option String → Json
  | some v => Json.str v
  | none => Json.null

/-- serde-derived encoding of `DesktopEntryBase`, fields in declaration
order. -/
def encodeEntry (e : DesktopEntryBase) : Json :=
  Json.obj [("name", Json.str e.name), ("exec", Json.str e.exec),
            ("icon", encodeOptStr e.icon), ("comment", encodeOptStr e.comment),
            ("generic_name", encodeOptStr e.generic_name)]

/-- serde-derived encoding of `CachedEntries`. -/
def encodeCached (c : CachedEntries) : Json :=
  Json.obj [("entries", Json.arr (c.entries.map encodeEntry)),
            ("last_update", Json.num c.last_update)]

/-- Decoding of an optional string field. -/
def decodeOptStr : Json → Option (Option String)
  | Json.null => some none
  | Json.str v => some (some v)
  | _ => none

/-- Decoding of one `DesktopEntryBase`; anything not of the encoded shape is
a decode failure. -/
def decodeEntry : Json → Option DesktopEntryBase
  | Json.obj [("name", Json.str n), ("exec", Json.str ex), ("icon", i),
              ("comment", c), ("generic_name", g)] => do
    let io ← decodeOptStr i
    let co ← decodeOptStr c
    let go ← decodeOptStr g
    some { name := n, exec := ex, icon := io, comment := co,
           generic_name := go }
  | _ => none

/-- Decoding of a list of entries; fails if any element fails. -/
def decodeList : List Json → Option (List DesktopEntryBase)
  | [] => some []
  | j :: rest => do
    let e ← decodeEntry j
    let es ← decodeList rest
    some (e :: es)

/-- `serde_json::from_str::<CachedEntries>` modelled at the JSON-tree level:
`none` is a decode failure. -/
def decodeCached : Json → Option CachedEntries
  | Json.obj [("entries", Json.arr xs), ("last_update", Json.num n)] =>
    (decodeList xs).map (fun es => { entries := es, last_update := n })
  | _ => none

/-- Lines 256-259 of main.rs: serialize a snapshot and overwrite the cache
file with it. -/
def writeCacheFile (s : Sys) (c : CachedEntries) : Sys :=
  { s with cacheFile := some (encodeCached c) }

/-- `update_desktop_cache` from main.rs: full live scan with the empty query
and limit 1000 (`get_matches("", 1000, false)`, whose `use_cache = false`
makes it exactly the live scan), then write the snapshot stamped with the
current epoch seconds. -/
def update_desktop_cache (s : Sys) : Except String Sys := do
  let acc ← live_scan s "" 1000
  Except.ok (writeCacheFile s { entries := acc, last_update := s.now })

/-- `get_cache` from main.rs: if the cache file does not exist, rebuild it
first; then open and read it (the unwrapped open can only fail if the
rebuild somehow left no file, which `writeCacheFile` never does). -/
def get_cache (s : Sys) : Except String (Option Json × Sys) :=
  match s.cacheFile with
  | some j => Except.ok (some j, s)
  | none =>
    match update_desktop_cache s with
    | Except.error e => Except.error e
    | Except.ok s2 =>
      match s2.cacheFile with
      | some j => Except.ok (some j, s2)
      | none => Except.error readMsg

/-- `get_cache_entries` from main.rs: read the cache file and decode it with
an unwrapped serde decode (a malformed cache panics). -/
def get_cache_entries (s : Sys) : Except String (Option CachedEntries × Sys) :=
  match get_cache s with
  | Except.error e => Except.error e
  | Except.ok (none, s2) => Except.ok (none, s2)
  | Except.ok (some j, s2) =>
    match decodeCached j with
    | some ce => Except.ok (some ce, s2)
    | none => Except.error decodeMsg

/-- `has_cache` from main.rs: pure existence check. -/
def has_cache (s : Sys) : Bool :=
  s.cacheFile.isSome

/-- The cache-path filter loop of `get_matches` (lines 272-292), with the
running `count` explicit: test `name`; else, if `generic_name` is present,
test it (and consult nothing else); else, if `comment` is present, test it;
stop once `count` reaches `limit`. -/
def cacheFilter (query : String) (limit : Nat) :
    List DesktopEntryBase → Nat → List DesktopEntryBase
  | [], _ => []
  | e :: rest, count =>
    if limit ≤ count then []
    else if lcContains e.name query then
      e :: cacheFilter query limit rest (count + 1)
    else
      match e.generic_name with
      | some g =>
        if lcContains g query then e :: cacheFilter query limit rest (count + 1)
        else cacheFilter query limit rest count
      | none =>
        match e.comment with
        | some c =>
          if lcContains c query then
            e :: cacheFilter query limit rest (count + 1)
          else cacheFilter query limit rest count
        | none => cacheFilter query limit rest count

/-- `get_matches` from main.rs: cache-backed filtering when `use_cache` is
set and the cache file exists, otherwise the live scan. -/
def get_matches (s : Sys) (query : String) (limit : Nat) (use_cache : Bool) :
    Except String (List DesktopEntryBase × Sys) :=
  if use_cache && has_cache s then
    match get_cache_entries s with
    | Except.error e => Except.error e
    | Except.ok (some ce, s2) => Except.ok (cacheFilter query limit ce.entries 0, s2)
    | Except.ok (none, s2) => Except.ok ([], s2)
  else
    match live_scan s query limit with
    | Except.error e => Except.error e
    | Except.ok r => Except.ok (r, s)

/-- `find_desktop_file` from main.rs. -/
def find_desktop_file (s : Sys) (app_name : String) :
    Except String (List DesktopEntryBase × Sys) :=
  get_matches s app_name 10 true

/-- `search` from main.rs: the public entry point, wrapping the match list in
`Some`. -/
def search (s : Sys) (query : String) :
    Except String (Option (List DesktopEntryBase) × Sys) :=
  match find_desktop_file s query with
  | Except.ok (l, s2) => Except.ok (some l, s2)
  | Except.error e => Except.error e

/-- A world with no cache file, every directory unreadable, and inert
capabilities; concrete systems below override individual fields. -/
def baseSys : Sys :=
  { cacheFile := none
    usrShare := Except.error ()
    usrLocalShare := Except.error ()
    localShare := Except.error ()
    desktopDir := Except.error ()
    flatpak := Except.error ()
    now := 0
    pathExists := fun _ => false
    findIcon := fun _ _ _ => none
    readEntry := fun _ =>
      { name := none, generic_name := none, comment := none, exec := none,
        icon := none } }

/-- World for claim C1: the file with content a parses to a record with only
a comment, the file with content b parses to a named record. -/
def sysC1 : Sys :=
  { baseSys with readEntry := fun c =>
      if c == "a" then
        { name := none, generic_name := none, comment := some "hello",
          exec := none, icon := none }
      else
        { name := some "hello app", generic_name := none, comment := none,
          exec := none, icon := none } }

/-- Claim C1, counterexample: a descriptor whose parsed record has neither
name nor generic_name but whose comment contains the query does not leave
the scan to continue with the next file — the scanner panics unwrapping the
absent name, so the following file (which would match by name) is never
reached.  Under the claim the result would be the match list for the second
file. -/
theorem c1_counterexample :
    get_desktop_entry sysC1 "hello"
      [DirItem.file "a.desktop" (Except.ok "a"),
       DirItem.file "b.desktop" (Except.ok "b")] 10 =
      Except.error unwrapMsg := rfl

/-- Claim C1, amended: in the live scan, a descriptor file whose parsed
record has neither name nor generic_name never produces a match; when its
comment does not contain the query (or is absent) the scan continues with
the next file, but when the comment does contain the query case-insensitively
the scanner panics while unwrapping the absent name instead of continuing. -/
theorem c1_amended (s : Sys) (q fname content : String) (rest : List DirItem)
    (acc : List DesktopEntryBase) (max : Nat)
    (hf : endsWithB fname ".desktop" = true)
    (hm : acc.length < max)
    (hn : (s.readEntry content).name = none)
    (hg : (s.readEntry content).generic_name = none) :
    gdeGo s q max (DirItem.file fname (Except.ok content) :: rest) acc =
      match (s.readEntry content).comment with
      | some c =>
        if lcContains c q then Except.error unwrapMsg
        else gdeGo s q max rest acc
      | none => gdeGo s q max rest acc := by
  have hm' : ¬ max ≤ acc.length := Nat.not_le.mpr hm
  simp only [gdeGo, hf, if_neg hm', if_true, hn, hg, Option.isSome_none,
    Bool.false_eq_true, if_false]
  cases hc : (s.readEntry content).comment with
  | none => simp [hc, unwrapOpt]
  | some c => simp [hc, unwrapOpt, hn]

/-- Claim C1, witness for the amended theorem at a concrete input. -/
theorem c1_amended_witness :
    gdeGo sysC1 "zzz" 10 [DirItem.file "a.desktop" (Except.ok "a")] [] =
      (match (sysC1.readEntry "a").comment with
       | some c =>
         if lcContains c "zzz" then Except.error unwrapMsg
         else gdeGo sysC1 "zzz" 10 [] []
       | none => gdeGo sysC1 "zzz" 10 [] []) :=
  c1_amended sysC1 "zzz" "a.desktop" "a" [] [] 10 (by decide) (by decide)
    rfl rfl

/-- World for claim C2: every descriptor parses to a record with no name and
a generic_name that will contain the query. -/
def sysC2 : Sys :=
  { baseSys with readEntry := fun _ =>
      { name := none, generic_name := some "Files", comment := none,
        exec := none, icon := none } }

/-- Claim C2: the specification says a record with no name whose
generic_name contains the query yields a structured record and the scan
continues; the code instead builds the record by unwrapping the absent
`entry.name`, which panics unconditionally in that branch.  Evaluation of
the scanner at such a descriptor shows the panic. -/
theorem c2_bug :
    get_desktop_entry sysC2 "file"
      [DirItem.file "f.desktop" (Except.ok "t")] 10 =
      Except.error unwrapMsg := rfl

/-- World for claim C3: no cache, only the per-user desktop directory
readable, containing one descriptor that parses to a record named zzz. -/
def sysC3 : Sys :=
  { baseSys with
    desktopDir := Except.ok [DirItem.file "z.desktop" (Except.ok "z")]
    readEntry := fun _ =>
      { name := some "zzz", generic_name := none, comment := none,
        exec := none, icon := none } }

/-- Claim C3, counterexample: with no cache, a query that matches no field
of the sole descriptor in the per-user desktop directory still returns that
record, because the source scans that directory with the empty query rather
than the search query.  Under the claim the result would be empty. -/
theorem c3_counterexample :
    get_matches sysC3 "fire" 10 true =
      Except.ok ([{ name := "zzz", exec := "", icon := none, comment := none,
                    generic_name := none }], sysC3) := rfl

/-- Claim C3, amended: when no cache file exists, a cached search call runs
the live scan and returns its merged, sorted result directly with the state
unchanged (no cache-filter logic); the query is applied to the system,
local-share, per-user local and flatpak directories, but the per-user
desktop directory is scanned with the empty query. -/
theorem c3_amended (s : Sys) (q : String) (limit : Nat)
    (h : has_cache s = false) :
    get_matches s q limit true = (do
      let m1 ← scanDir s q limit s.usrShare
      let m2 ← scanDir s q limit s.usrLocalShare
      let m3 ← scanDir s q limit s.localShare
      let m4 ← scanDir s "" limit s.desktopDir
      let m5 ← scanDir s q limit s.flatpak
      Except.ok (sortByName (m1 ++ m2 ++ m3 ++ m4 ++ m5), s)) := by
  simp only [get_matches, h, Bool.and_false, Bool.false_eq_true, if_false,
    live_scan]
  cases scanDir s q limit s.usrShare <;>
  cases scanDir s q limit s.usrLocalShare <;>
  cases scanDir s q limit s.localShare <;>
  cases scanDir s "" limit s.desktopDir <;>
  cases scanDir s q limit s.flatpak <;> rfl

/-- Claim C3, witness for the amended theorem at a concrete input. -/
theorem c3_amended_witness :
    get_matches sysC3 "fire" 10 true = (do
      let m1 ← scanDir sysC3 "fire" 10 sysC3.usrShare
      let m2 ← scanDir sysC3 "fire" 10 sysC3.usrLocalShare
      let m3 ← scanDir sysC3 "fire" 10 sysC3.localShare
      let m4 ← scanDir sysC3 "" 10 sysC3.desktopDir
      let m5 ← scanDir sysC3 "fire" 10 sysC3.flatpak
      Except.ok (sortByName (m1 ++ m2 ++ m3 ++ m4 ++ m5), sysC3)) :=
  c3_amended sysC3 "fire" 10 rfl

/-- Claim C4, counterexample: a search while the cache file is absent
answers from the live scan and leaves the state unchanged — in particular
the cache file is still absent afterwards, so no snapshot was built or
persisted as part of answering the query.  Under the claim the returned
state would hold a written cache. -/
theorem c4_counterexample :
    search baseSys "anything" = Except.ok (some [], baseSys) ∧
      baseSys.cacheFile = none :=
  ⟨rfl, rfl⟩

/-- Claim C4, amended: when the cache file is absent, search answers the
query from a live scan and performs no rebuild: the returned state is the
input state, so no cache snapshot is created or persisted.  The implicit
rebuild-then-read inside get_cache is unreachable on this path because
get_matches only consults the cache when has_cache already holds. -/
theorem c4_amended (s : Sys) (q : String) (h : has_cache s = false) :
    search s q = Except.map (fun r => (some r, s)) (live_scan s q 10) := by
  simp only [search, find_desktop_file, get_matches, h, Bool.and_false,
    Bool.false_eq_true, if_false]
  cases live_scan s q 10 <;> rfl

/-- Claim C4, witness for the amended theorem at a concrete input. -/
theorem c4_witness :
    search baseSys "q4" =
      Except.map (fun r => (some r, baseSys)) (live_scan baseSys "q4" 10) :=
  c4_amended baseSys "q4" rfl

/-- Cached record for claim C5: its name does not contain the query qqq,
its generic_name does, and it has no comment. -/
def eC5 : DesktopEntryBase :=
  { name := "bbb", exec := "", icon := none, comment := none,
    generic_name := some "qqq" }

/-- World for claim C5: a well-formed cache holding exactly eC5. -/
def sysC5 : Sys :=
  { baseSys with
    cacheFile := some (encodeCached { entries := [eC5], last_update := 5 }) }

/-- Claim C5, counterexample: in the cache-backed path the first field
present on eC5 is its (required) name, which does not contain the query, so
under the claim the record would be excluded; the code nevertheless includes
it because after the name test fails it goes on to test generic_name. -/
theorem c5_counterexample :
    get_matches sysC5 "qqq" 10 true = Except.ok ([eC5], sysC5) := rfl

/-- The matching predicate the cache path actually implements, stated from
the specification wording for comparison: name is always tested first; only
when it fails is the first present field among generic_name then comment
tested, and that fallback field decides membership. -/
def specCacheMatch (q : String) (e : DesktopEntryBase) : Bool :=
  lcContains e.name q ||
    match e.generic_name with
    | some g => lcContains g q
    | none =>
      match e.comment with
      | some c => lcContains c q
      | none => false

/-- Claim C5, amended: a cache-path record is included iff its name contains
the query, or, failing that, the first present field among generic_name then
comment contains it (so a present generic_name that does not match excludes
the record even when its comment matches); the loop keeps the first
limit-minus-count such records. -/
theorem c5_amended (q : String) (limit : Nat) (entries : List DesktopEntryBase)
    (count : Nat) :
    cacheFilter q limit entries count =
      (entries.filter (specCacheMatch q)).take (limit - count) := by
  induction entries generalizing count with
  | nil => simp [cacheFilter]
  | cons e rest ih =>
    by_cases hl : limit ≤ count
    · have h0 : limit - count = 0 := Nat.sub_eq_zero_of_le hl
      simp [cacheFilter, hl, h0]
    · obtain ⟨k, hk⟩ : ∃ k, limit - count = k + 1 :=
        ⟨limit - count - 1, by omega⟩
      have hk1 : limit - (count + 1) = k := by omega
      simp only [cacheFilter, if_neg hl]
      by_cases hn : lcContains e.name q = true
      · have hm : specCacheMatch q e = true := by simp [specCacheMatch, hn]
        simp [hn, List.filter_cons, hm, hk, List.take_succ_cons, ih, hk1]
      · cases hg : e.generic_name with
        | some g =>
          by_cases hgq : lcContains g q = true
          · have hm : specCacheMatch q e = true := by
              simp [specCacheMatch, hn, hg, hgq]
            simp [hn, hg, hgq, List.filter_cons, hm, hk, List.take_succ_cons,
              ih, hk1]
          · have hm : specCacheMatch q e = false := by
              simp [specCacheMatch, hn, hg, hgq]
            simp [hn, hg, hgq, List.filter_cons, hm, ih]
        | none =>
          cases hc : e.comment with
          | some c =>
            by_cases hcq : lcContains c q = true
            · have hm : specCacheMatch q e = true := by
                simp [specCacheMatch, hn, hg, hc, hcq]
              simp [hn, hg, hc, hcq, List.filter_cons, hm, hk,
                List.take_succ_cons, ih, hk1]
            · have hm : specCacheMatch q e = false := by
                simp [specCacheMatch, hn, hg, hc, hcq]
              simp [hn, hg, hc, hcq, List.filter_cons, hm, ih]
          | none =>
            have hm : specCacheMatch q e = false := by
              simp [specCacheMatch, hn, hg, hc]
            simp [hn, hg, hc, List.filter_cons, hm, ih]

/-- World for claim C6: every descriptor parses to a record whose name will
match the query. -/
def sysC6 : Sys :=
  { baseSys with readEntry := fun _ =>
      { name := some "match", generic_name := none, comment := none,
        exec := none, icon := none } }

/-- Claim C6, counterexample: a candidate descriptor file whose read fails
is not skipped — the scanner panics on the unwrapped open/read, so the
following file (which would match) is never reached.  Under the claim the
result would be the match list for the second file. -/
theorem c6_counterexample :
    get_desktop_entry sysC6 "match"
      [DirItem.file "a.desktop" (Except.error ()),
       DirItem.file "b.desktop" (Except.ok "t")] 10 =
      Except.error readMsg := rfl

/-- Claim C6, amended: in the scan of one directory, a directory-entry
enumeration failure is skipped and the scan continues with the next entry;
but a failure to open or read a candidate descriptor file is not skipped —
the scanner panics, aborting the scan of that directory. -/
theorem c6_amended :
    (∀ (s : Sys) (q : String) (max : Nat) (rest : List DirItem)
       (acc : List DesktopEntryBase), acc.length < max →
       gdeGo s q max (DirItem.err :: rest) acc = gdeGo s q max rest acc) ∧
    (∀ (s : Sys) (q : String) (max : Nat) (fname : String)
       (rest : List DirItem) (acc : List DesktopEntryBase),
       endsWithB fname ".desktop" = true → acc.length < max →
       gdeGo s q max (DirItem.file fname (Except.error ()) :: rest) acc =
         Except.error readMsg) := by
  constructor
  · intro s q max rest acc hm
    simp [gdeGo, Nat.not_le.mpr hm]
  · intro s q max fname rest acc hf hm
    simp [gdeGo, Nat.not_le.mpr hm, hf]

/-- Claim C6, witness for the amended theorem at concrete inputs. -/
theorem c6_witness :
    gdeGo sysC6 "match" 10 [DirItem.err] [] = gdeGo sysC6 "match" 10 [] [] ∧
    gdeGo sysC6 "match" 10 [DirItem.file "c.desktop" (Except.error ())] [] =
      Except.error readMsg :=
  ⟨c6_amended.1 sysC6 "match" 10 [] [] (by decide),
   c6_amended.2 sysC6 "match" 10 "c.desktop" [] [] (by decide) (by decide)⟩

/-- Claim C7: while the cache file exists but holds content the decoder
rejects, every search call fails with the hard decode error; it is not
treated as an absent cache and no live rescan happens. -/
theorem c7_confirmed (s : Sys) (q : String) (j : Json)
    (hc : s.cacheFile = some j) (hd : decodeCached j = none) :
    search s q = Except.error decodeMsg := by
  simp [search, find_desktop_file, get_matches, has_cache, hc,
    get_cache_entries, get_cache, hd]

/-- World for claim C7: the cache file exists but its content is malformed
(a bare JSON null). -/
def sysC7 : Sys := { baseSys with cacheFile := some Json.null }

/-- Claim C7, witness at a concrete malformed cache. -/
theorem c7_witness : search sysC7 "a" = Except.error decodeMsg :=
  c7_confirmed sysC7 "a" Json.null rfl rfl

/-- World for claim C8: the icon finder resolves the name loupe to a
concrete path, every descriptor parses to a named record with no Icon
field. -/
def sysC8 : Sys :=
  { baseSys with
    findIcon := fun n _ _ =>
      if n == "loupe" then some "/icons/loupe.png" else none
    readEntry := fun _ =>
      { name := some "App", generic_name := none, comment := none,
        exec := none, icon := none } }

/-- Claim C8, counterexample: an accepted match whose descriptor has no Icon
field does not get a none icon — the source substitutes the literal name
loupe and resolves it, so when the resolver knows loupe the stored icon is
that resolved path. -/
theorem c8_counterexample :
    get_desktop_entry sysC8 "app"
      [DirItem.file "a.desktop" (Except.ok "t")] 10 =
      Except.ok [{ name := "App", exec := "",
                   icon := some "/icons/loupe.png", comment := none,
                   generic_name := none }] := rfl

/-- Claim C8, amended: for every accepted match the stored icon is computed
by get_icon_path from the raw icon value with the literal loupe substituted
when the Icon field is absent; get_icon_path keeps a raw value that names an
existing path and otherwise returns exactly the icon finder result at the
fixed size 48 (none when resolution fails). -/
theorem c8_amended :
    (∀ (s : Sys) (n : String),
       get_icon_path s n = if s.pathExists n then some n
                           else s.findIcon n 48 1) ∧
    (∀ (s : Sys) (q : String) (max : Nat) (fname content : String)
       (rest : List DirItem) (acc : List DesktopEntryBase) (nm : String),
       endsWithB fname ".desktop" = true → acc.length < max →
       (s.readEntry content).name = some nm → lcContains nm q = true →
       gdeGo s q max (DirItem.file fname (Except.ok content) :: rest) acc =
         gdeGo s q max rest (acc ++
           [{ name := nm
              exec := ((s.readEntry content).exec).getD ""
              generic_name := (s.readEntry content).generic_name
              icon := get_icon_path s (((s.readEntry content).icon).getD "loupe")
              comment := (s.readEntry content).comment }])) := by
  constructor
  · intro s n
    unfold get_icon_path
    by_cases h : s.pathExists n = true
    · simp [h]
    · simp only [h, Bool.false_eq_true, if_false]
      cases s.findIcon n 48 1 <;> simp
  · intro s q max fname content rest acc nm hf hm hn hq
    simp [gdeGo, Nat.not_le.mpr hm, hf, hn, unwrapOpt, hq, toBase]

/-- Claim C8, witness for the amended theorem at a concrete input. -/
theorem c8_witness :
    gdeGo sysC8 "app" 10 [DirItem.file "a.desktop" (Except.ok "t")] [] =
      gdeGo sysC8 "app" 10 []
        ([] ++ [{ name := "App", exec := "",
                  icon := get_icon_path sysC8 "loupe", comment := none,
                  generic_name := none }]) :=
  c8_amended.2 sysC8 "app" 10 "a.desktop" "t" [] [] "App" (by decide)
    (by decide) rfl (by decide)

/-- Decoding inverts encoding on optional string fields. -/
theorem decodeOptStr_encodeOptStr (o : Option String) :
    decodeOptStr (encodeOptStr o) = some o := by
  cases o <;> rfl

/-- Decoding inverts encoding on one indexed record, preserving the
present/absent state of every optional field. -/
theorem decodeEntry_encodeEntry (e : DesktopEntryBase) :
    decodeEntry (encodeEntry e) = some e := by
  obtain ⟨n, ex, i, c, g⟩ := e
  cases i <;> cases c <;> cases g <;> rfl

/-- Decoding inverts encoding on entry lists. -/
theorem decodeList_encode (l : List DesktopEntryBase) :
    decodeList (l.map encodeEntry) = some l := by
  induction l with
  | nil => rfl
  | cons e rest ih => simp [decodeList, decodeEntry_encodeEntry e, ih]

/-- Decoding inverts encoding on whole snapshots. -/
theorem decodeCached_encodeCached (c : CachedEntries) :
    decodeCached (encodeCached c) = some c := by
  obtain ⟨es, ts⟩ := c
  simp [encodeCached, decodeCached, decodeList_encode]

/-- Claim C9: writing any snapshot through the cache store and reading it
back yields an equal snapshot — every DesktopEntry field, the present or
absent state of each optional field, and the last_update timestamp survive
the write-then-read cycle. -/
theorem c9_roundtrip (s : Sys) (c : CachedEntries) :
    get_cache_entries (writeCacheFile s c) =
      Except.ok (some c, writeCacheFile s c) := by
  simp [get_cache_entries, get_cache, writeCacheFile,
    decodeCached_encodeCached]

/-- Claim C10: whenever search returns normally it returns Some list, never
None; emptiness is only observable inside the list. -/
theorem c10_always_some (s : Sys) (q : String)
    (r : Option (List DesktopEntryBase) × Sys)
    (h : search s q = Except.ok r) : ∃ l, r.1 = some l := by
  unfold search at h
  cases hfd : find_desktop_file s q with
  | ok p =>
    obtain ⟨l, s2⟩ := p
    rw [hfd] at h
    simp only [Except.ok.injEq] at h
    exact ⟨l, by rw [← h]⟩
  | error e =>
    rw [hfd] at h
    simp at h

/-- Claim C10, witness: a search over an empty world returns normally with
Some of the empty list. -/
theorem c10_witness :
    ∃ l, (Prod.fst (some ([] : List DesktopEntryBase), baseSys)) = some l :=
  c10_always_some baseSys "q10" (some [], baseSys) rfl
